import Mathlib

/-!
# P2S consensus core: a shallow embedding with proofs

This file embeds the P2S (Proposer-in-2-Steps) consensus core — the Pedersen-style
commitment scheme, the Merkle proof system, the PHT/MT transaction model, the B1/B2
block validation rules, the MEV risk analyzer, the weighted validator selection and
the bounded cache — as executable Lean definitions, and proves (or refutes) the
specified properties about them.

Modelling conventions:
* Go byte slices are `List Nat` (each entry a byte value); `common.Hash` and
  `common.Address` values are naturals (their big-endian byte interpretation).
* Go `uint64` timestamps are naturals; the eviction sentinel `^uint64(0)` is the
  explicit constant `2^64 - 1`.
* Go `*big.Int` fields are `Int`; `big.Int.Bytes()` is the minimal big-endian byte
  string of the absolute value.
* Go `float64` MEV scores are modelled as exact rationals `ℚ`.
* Functions that can fail return `Except String α` carrying the Go error strings;
  code that can hit a Go runtime panic (out-of-range slice indexing) returns a
  `GoRes α` with an explicit `panic` outcome.
* Go map iteration order is unspecified; maps are association lists and the list
  order stands for one iteration order. Wall-clock reads (`time.Now`) are `now`
  parameters.
-/

set_option maxRecDepth 1000000
set_option maxHeartbeats 1000000

namespace P2S

/-- Byte strings are lists of byte values. -/
abbrev Bytes := List Nat

/-- Outcome of a Go computation that may return normally, return an error, or
hit a runtime panic (e.g. slice index out of range). -/
inductive GoRes (α : Type) where
  | panic : GoRes α
  | err : String → GoRes α
  | ok : α → GoRes α
deriving DecidableEq

/-! ## Byte-level helpers (Go standard library / go-ethereum conversions) -/

/-- Big-endian interpretation of a byte string (`big.Int.SetBytes`). -/
def bytesToNat (bs : Bytes) : Nat :=
  bs.foldl (fun acc b => acc * 256 + b) 0

/-- Auxiliary for `natToBytes`; the first argument is fuel bounding the number of
base-256 digits (`n` itself always suffices). -/
def natToBytesAux : Nat → Nat → Bytes
  | 0, _ => []
  | fuel + 1, n => if n = 0 then [] else natToBytesAux fuel (n / 256) ++ [n % 256]

/-- Minimal big-endian byte string of a natural (`big.Int.Bytes`): empty for zero,
no leading zero bytes otherwise. -/
def natToBytes (n : Nat) : Bytes :=
  natToBytesAux n n

/-- The 20-byte big-endian encoding of an address (`common.Address.Bytes`). -/
def addrBytes (a : Nat) : Bytes :=
  (List.range 20).map (fun i => a >>> (8 * (19 - i)) % 256)

/-- The 32-byte big-endian encoding of a hash value (`common.Hash.Bytes`). -/
def hash32Bytes (h : Nat) : Bytes :=
  (List.range 32).map (fun i => h >>> (8 * (31 - i)) % 256)

/-- 8 bytes of a `uint64`, least-significant byte first — the Go sources build
timestamp/gas-limit bytes with `b[i] = byte(x >> (8*i))`. -/
def u64BytesLE (x : Nat) : Bytes :=
  (List.range 8).map (fun i => x >>> (8 * i) % 256)

/-- 8 bytes of a `uint64`, most-significant byte first (SHA-256 length field). -/
def u64BytesBE (x : Nat) : Bytes :=
  (List.range 8).map (fun i => x >>> (8 * (7 - i)) % 256)

/-! ## SHA-256 (model of Go `crypto/sha256`) -/

/-- The SHA-256 round constants. -/
def sha256K : List Nat :=
  [1116352408, 1899447441, 3049323471, 3921009573, 961987163,
   1508970993, 2453635748, 2870763221, 3624381080, 310598401,
   607225278, 1426881987, 1925078388, 2162078206, 2614888103,
   3248222580, 3835390401, 4022224774, 264347078, 604807628,
   770255983, 1249150122, 1555081692, 1996064986, 2554220882,
   2821834349, 2952996808, 3210313671, 3336571891, 3584528711,
   113926993, 338241895, 666307205, 773529912, 1294757372,
   1396182291, 1695183700, 1986661051, 2177026350, 2456956037,
   2730485921, 2820302411, 3259730800, 3345764771, 3516065817,
   3600352804, 4094571909, 275423344, 430227734, 506948616,
   659060556, 883997877, 958139571, 1322822218, 1537002063,
   1747873779, 1955562222, 2024104815, 2227730452, 2361852424,
   2428436474, 2756734187, 3204031479, 3329325298]

/-- 32-bit right rotation. -/
def rotr32 (x n : Nat) : Nat :=
  ((x >>> n) ||| (x <<< (32 - n))) % 2 ^ 32

/-- Working state of the SHA-256 compression function. -/
structure Sha256State where
  a : Nat
  b : Nat
  c : Nat
  d : Nat
  e : Nat
  f : Nat
  g : Nat
  h : Nat
deriving DecidableEq

/-- The SHA-256 initial hash value. -/
def sha256Init : Sha256State :=
  ⟨1779033703, 3144134277, 1013904242, 2773480762,
   1359893119, 2600822924, 528734635, 1541459225⟩

/-- One round of the SHA-256 compression function on schedule word `w` with round
constant `k`. -/
def sha256Round (st : Sha256State) (wk : Nat × Nat) : Sha256State :=
  let s1 := rotr32 st.e 6 ^^^ rotr32 st.e 11 ^^^ rotr32 st.e 25
  let ch := (st.e &&& st.f) ^^^ ((st.e ^^^ 0xFFFFFFFF) &&& st.g)
  let t1 := (st.h + s1 + ch + wk.2 + wk.1) % 2 ^ 32
  let s0 := rotr32 st.a 2 ^^^ rotr32 st.a 13 ^^^ rotr32 st.a 22
  let maj := (st.a &&& st.b) ^^^ (st.a &&& st.c) ^^^ (st.b &&& st.c)
  let t2 := (s0 + maj) % 2 ^ 32
  ⟨(t1 + t2) % 2 ^ 32, st.a, st.b, st.c, (st.d + t1) % 2 ^ 32, st.e, st.f, st.g⟩

/-- Extend a 16-word message schedule by `n` further words. -/
def sha256Extend : List Nat → Nat → List Nat
  | w, 0 => w
  | w, n + 1 =>
    let l := w.length
    let s0w := w.getD (l - 15) 0
    let s1w := w.getD (l - 2) 0
    let s0 := rotr32 s0w 7 ^^^ rotr32 s0w 18 ^^^ (s0w >>> 3)
    let s1 := rotr32 s1w 17 ^^^ rotr32 s1w 19 ^^^ (s1w >>> 10)
    sha256Extend (w ++ [(w.getD (l - 16) 0 + s0 + w.getD (l - 7) 0 + s1) % 2 ^ 32]) n

/-- Process one 64-byte block. -/
def sha256Block (st : Sha256State) (block : Bytes) : Sha256State :=
  let w16 := (List.range 16).map (fun i => bytesToNat ((block.drop (4 * i)).take 4))
  let w := sha256Extend w16 48
  let r := (w.zip sha256K).foldl sha256Round st
  ⟨(st.a + r.a) % 2 ^ 32, (st.b + r.b) % 2 ^ 32, (st.c + r.c) % 2 ^ 32, (st.d + r.d) % 2 ^ 32,
   (st.e + r.e) % 2 ^ 32, (st.f + r.f) % 2 ^ 32, (st.g + r.g) % 2 ^ 32, (st.h + r.h) % 2 ^ 32⟩

/-- Split a byte string into 64-byte blocks; the first argument is fuel
(the list length always suffices, each step removes 64 elements). -/
def chunks64 : Nat → Bytes → List Bytes
  | 0, _ => []
  | fuel + 1, l => if l.isEmpty then [] else l.take 64 :: chunks64 fuel (l.drop 64)

/-- SHA-256 of a byte string, as 32 output bytes. -/
def sha256 (msg : Bytes) : Bytes :=
  let len := msg.length
  let zeros := (119 - len % 64) % 64
  let padded := msg ++ [0x80] ++ List.replicate zeros 0 ++ u64BytesBE (len * 8)
  let final := (chunks64 padded.length padded).foldl sha256Block sha256Init
  (List.range 4).map (fun i => final.a >>> (8 * (3 - i)) % 256) ++
  (List.range 4).map (fun i => final.b >>> (8 * (3 - i)) % 256) ++
  (List.range 4).map (fun i => final.c >>> (8 * (3 - i)) % 256) ++
  (List.range 4).map (fun i => final.d >>> (8 * (3 - i)) % 256) ++
  (List.range 4).map (fun i => final.e >>> (8 * (3 - i)) % 256) ++
  (List.range 4).map (fun i => final.f >>> (8 * (3 - i)) % 256) ++
  (List.range 4).map (fun i => final.g >>> (8 * (3 - i)) % 256) ++
  (List.range 4).map (fun i => final.h >>> (8 * (3 - i)) % 256)

/-! ## Pedersen-style commitment scheme (`PedersenCommitment` in `pht.go`) -/

/-- The secp256k1 field prime `crypto.S256().P`. -/
def secp256k1P : Nat :=
  0xFFFFFFFFFFFFFFFFFFFFFFFFFFFFFFFFFFFFFFFFFFFFFFFFFFFFFFFEFFFFFC2F

/-- The fixed generator `big.NewInt(2)` of the commitment scheme. -/
def pedersenGenerator : Nat := 2

namespace PedersenCommitment

/-- `PedersenCommitment.Commit`: errors on an empty field list, otherwise hashes the
concatenation of all fields with SHA-256 and returns the bytes of
`generator ^ hash mod p`. -/
def Commit (data : List Bytes) : Except String Bytes :=
  if data.isEmpty then .error "no data to commit"
  else
    let hashInt := bytesToNat (sha256 data.flatten)
    .ok (natToBytes (pedersenGenerator ^ hashInt % secp256k1P))

/-- `PedersenCommitment.Verify`: recomputes the commitment over `data` and compares
it byte-for-byte with the supplied commitment. -/
def Verify (commitment : Bytes) (data : List Bytes) : Bool :=
  match Commit data with
  | .error _ => false
  | .ok newCommitment => commitment == newCommitment

end PedersenCommitment

/-! ## Merkle proof system (`MerkleProofSystem` in `mt.go`) -/

namespace MerkleProofSystem

/-- `padToPowerOfTwo.go` auxiliary: the least power of two that is `≥ n`, starting
the doubling loop from 1; the first argument is fuel (for `n ≥ 1`, `n` doublings
always suffice). -/
def nextPowerOfTwoAux : Nat → Nat → Nat → Nat
  | 0, _, p => p
  | fuel + 1, n, p => if p < n then nextPowerOfTwoAux fuel n (p <<< 1) else p

/-- `padToPowerOfTwo`: pad the data list to the next power of two with 32-byte
zero entries (`make([]byte, 32)`). -/
def padToPowerOfTwo (data : List Bytes) : List Bytes :=
  if data.isEmpty then data
  else
    let nextPower := nextPowerOfTwoAux data.length data.length 1
    data ++ List.replicate (nextPower - data.length) (List.replicate 32 0)

/-- One iteration of the `buildMerkleTree` internal-node loop: read the children at
indices `2*i - n` and `2*i - n + 1` (out of range ⇒ Go panic), hash them, and store
the result at index `i`. -/
def buildStep (n : Nat) (tree : GoRes (List Bytes)) (i : Nat) : GoRes (List Bytes) :=
  match tree with
  | .panic => .panic
  | .err e => .err e
  | .ok t =>
    match t.get? (2 * i - n), t.get? (2 * i - n + 1) with
    | some leftChild, some rightChild => .ok (t.set i (sha256 (leftChild ++ rightChild)))
    | _, _ => .panic

/-- `buildMerkleTree`: allocate `2*len(padded)-1` slots (unfilled slots are nil,
i.e. empty byte strings), copy the padded leaves, then run the internal-node
loop for `i = len(padded) .. len(tree)-1`. -/
def buildMerkleTree (data : List Bytes) : GoRes (List Bytes) :=
  if data.isEmpty then .ok []
  else
    let padded := padToPowerOfTwo data
    let n := padded.length
    let tree0 := padded ++ List.replicate (n - 1) []
    (List.range' n (n - 1)).foldl (buildStep n) (.ok tree0)

/-- `findLeafIndex`: index of the first tree node whose bytes equal the
commitment, or `none` for Go's `-1`. -/
def findLeafIndex (tree : List Bytes) (commitment : Bytes) : Option Nat :=
  tree.findIdx? (fun leaf => leaf == commitment)

/-- `generateMerkleProof` loop body; the first argument is fuel (the loop index
strictly increases towards `len(tree) - 1`, so `len(tree)` iterations suffice). -/
def generateMerkleProofAux (tree : List Bytes) : Nat → Nat → Bytes
  | 0, _ => []
  | fuel + 1, currentIndex =>
    if currentIndex < tree.length - 1 then
      tree.getD (currentIndex ^^^ 1) [] ++
        generateMerkleProofAux tree fuel ((currentIndex + tree.length) / 2)
    else []

/-- `generateMerkleProof`: concatenate the siblings along the path from the leaf
to the root. -/
def generateMerkleProof (tree : List Bytes) (leafIndex : Nat) : Bytes :=
  generateMerkleProofAux tree tree.length leafIndex

/-- `Prove`: errors on empty data; builds the Merkle tree over the data (which can
panic), looks for the commitment among the tree nodes, and emits the sibling path. -/
def Prove (commitment : Bytes) (data : List Bytes) : GoRes Bytes :=
  if data.isEmpty then .err "no data to prove"
  else
    match buildMerkleTree data with
    | .panic => .panic
    | .err e => .err e
    | .ok tree =>
      match findLeafIndex tree commitment with
      | none => .err "commitment not found in tree"
      | some leafIndex => .ok (generateMerkleProof tree leafIndex)

/-- `verifyMerkleProof` folding loop: consume the proof in 32-byte slices
(a trailing slice shorter than 32 bytes makes the Go slicing panic). -/
def verifyMerkleProofAux : Nat → Bytes → Bytes → GoRes Bytes
  | 0, current, _ => .ok current
  | fuel + 1, current, proof =>
    if proof.isEmpty then .ok current
    else if 32 ≤ proof.length then
      verifyMerkleProofAux fuel (sha256 (current ++ proof.take 32)) (proof.drop 32)
    else .panic

/-- `verifyMerkleProof`: rebuild a root from the commitment and the proof slices
and compare with the last tree node (Go panics indexing `tree[len(tree)-1]` of an
empty tree). -/
def verifyMerkleProof (proof commitment : Bytes) (tree : List Bytes) : GoRes Bool :=
  if proof.isEmpty then .ok false
  else
    match verifyMerkleProofAux proof.length commitment proof with
    | .panic => .panic
    | .err e => .err e
    | .ok current =>
      match tree.get? (tree.length - 1) with
      | none => .panic
      | some root => .ok (current == root)

/-- `Verify`: false on empty data, otherwise rebuild the tree (which can panic)
and check the proof against its root. -/
def Verify (proof commitment : Bytes) (data : List Bytes) : GoRes Bool :=
  if data.isEmpty then .ok false
  else
    match buildMerkleTree data with
    | .panic => .panic
    | .err e => .err e
    | .ok tree => verifyMerkleProof proof commitment tree

end MerkleProofSystem

/-! ## PHT / MT transaction model (`pht.go`, `mt.go`) -/

/-- `PHTTransaction`: visible fields (sender, gas price, commitment, nonce,
timestamp), hidden-but-held fields (recipient, value, call data, type, gas limit)
and the original transaction hash. -/
structure PHTTransaction where
  Sender : Nat
  GasPrice : Int
  Commitment : Bytes
  Nonce : Bytes
  Timestamp : Nat
  Recipient : Nat
  Value : Int
  CallData : Bytes
  TxType : Nat
  GasLimit : Nat
  TxHash : Nat
deriving DecidableEq

instance : Inhabited PHTTransaction :=
  ⟨⟨0, 0, [], [], 0, 0, 0, [], 0, 0, 0⟩⟩

/-- `PHTTransaction.Hash`: SHA-256 over the visible fields only (sender bytes,
gas-price bytes, commitment, nonce, little-endian timestamp bytes), interpreted
as a 32-byte hash value. -/
def PHTTransaction.hash (pht : PHTTransaction) : Nat :=
  bytesToNat (sha256 (addrBytes pht.Sender ++ natToBytes pht.GasPrice.natAbs ++
    pht.Commitment ++ pht.Nonce ++ u64BytesLE pht.Timestamp))

/-- `MTTransaction`: the revealed fields, the back-reference `PHTHash`, the proof
blob, the reveal timestamp and the original transaction hash. -/
structure MTTransaction where
  Recipient : Nat
  Value : Int
  CallData : Bytes
  TxType : Nat
  GasLimit : Nat
  PHTHash : Nat
  Proof : Bytes
  Timestamp : Nat
  TxHash : Nat
deriving DecidableEq

instance : Inhabited MTTransaction :=
  ⟨⟨0, 0, [], 0, 0, 0, [], 0, 0⟩⟩

/-- `MTTransaction.Hash`: SHA-256 over the revealed fields, the PHT back-reference
and the reveal timestamp. -/
def MTTransaction.hash (mt : MTTransaction) : Nat :=
  bytesToNat (sha256 (addrBytes mt.Recipient ++ natToBytes mt.Value.natAbs ++
    mt.CallData ++ [mt.TxType] ++ u64BytesLE mt.GasLimit ++ hash32Bytes mt.PHTHash ++
    u64BytesLE mt.Timestamp))

/-- The list of hidden-field byte strings a PHT's commitment is computed over and
an MT is proved/verified against: recipient bytes, value bytes, call data,
`[txType]`, and the single low byte of the gas limit (Go's `byte(gasLimit)`). -/
def hiddenFieldData (recipient : Nat) (value : Int) (callData : Bytes)
    (txType gasLimit : Nat) : List Bytes :=
  [addrBytes recipient, natToBytes value.natAbs, callData, [txType], [gasLimit % 256]]

namespace MTManager

/-- `MTManager.CreateMT`: prove the PHT's hidden fields against its commitment
(propagating the Merkle system's panic/error) and assemble the MT; `now` models
`time.Now().Unix()`. -/
def CreateMT (now : Nat) (pht : PHTTransaction) : GoRes MTTransaction :=
  match MerkleProofSystem.Prove pht.Commitment
      (hiddenFieldData pht.Recipient pht.Value pht.CallData pht.TxType pht.GasLimit) with
  | .panic => .panic
  | .err e => .err e
  | .ok proof =>
    .ok { Recipient := pht.Recipient, Value := pht.Value, CallData := pht.CallData,
          TxType := pht.TxType, GasLimit := pht.GasLimit, PHTHash := pht.hash,
          Proof := proof, Timestamp := now, TxHash := pht.TxHash }

/-- `MTManager.VerifyMT`: check the Merkle proof against the PHT's commitment
(propagating panics), then the PHT hash back-reference, then field-by-field
equality of the revealed data with the committed data. -/
def VerifyMT (mt : MTTransaction) (pht : PHTTransaction) : GoRes Unit :=
  match MerkleProofSystem.Verify mt.Proof pht.Commitment
      (hiddenFieldData mt.Recipient mt.Value mt.CallData mt.TxType mt.GasLimit) with
  | .panic => .panic
  | .err e => .err e
  | .ok valid =>
    if !valid then .err "invalid proof"
    else if mt.PHTHash ≠ pht.hash then .err "PHT hash mismatch"
    else if mt.Recipient ≠ pht.Recipient then .err "recipient mismatch"
    else if mt.Value ≠ pht.Value then .err "value mismatch"
    else if mt.CallData ≠ pht.CallData then .err "call data mismatch"
    else if mt.TxType ≠ pht.TxType then .err "transaction type mismatch"
    else if mt.GasLimit ≠ pht.GasLimit then .err "gas limit mismatch"
    else .ok ()

end MTManager

/-! ## MEV risk analyzer (`mev_detector.go`) -/

namespace MEVDetector

/-- `hasDEXFunctionSignature`: the first four call-data bytes match a known DEX
swap selector. -/
def hasDEXFunctionSignature (callData : Bytes) : Bool :=
  if callData.length < 4 then false
  else
    let signature := callData.take 4
    signature == [0x38, 0xed, 0x17, 0x39] || signature == [0x7f, 0xf3, 0x6a, 0xb5] ||
    signature == [0x18, 0xcb, 0xaf, 0xe5] || signature == [0xfb, 0x3b, 0xdb, 0x41] ||
    signature == [0x88, 0x03, 0xdb, 0xee] || signature == [0x4a, 0x25, 0xd9, 0x4a]

/-- `hasFrontRunPattern`: the first four call-data bytes match a common
transfer/approve/mint/burn selector. -/
def hasFrontRunPattern (callData : Bytes) : Bool :=
  if callData.length < 4 then false
  else
    let signature := callData.take 4
    signature == [0xa9, 0x05, 0x9c, 0xbb] || signature == [0x23, 0xb8, 0x72, 0xdd] ||
    signature == [0x09, 0x5e, 0xa7, 0xb3] || signature == [0x40, 0xc1, 0x0f, 0x19] ||
    signature == [0x42, 0x96, 0x6c, 0x68]

/-- `hasArbitrageFunctionSignature`. -/
def hasArbitrageFunctionSignature (callData : Bytes) : Bool :=
  if callData.length < 4 then false
  else
    let signature := callData.take 4
    signature == [0x6a, 0x62, 0x78, 0x42] || signature == [0x79, 0xcc, 0x67, 0x90] ||
    signature == [0x18, 0x16, 0x0d, 0xdd] || signature == [0x70, 0xa0, 0x82, 0x31]

/-- `hasLiquidationFunctionSignature`. -/
def hasLiquidationFunctionSignature (callData : Bytes) : Bool :=
  if callData.length < 4 then false
  else
    let signature := callData.take 4
    signature == [0x42, 0x84, 0x2e, 0x0e] || signature == [0xb8, 0x8d, 0x4f, 0xde] ||
    signature == [0x23, 0xb8, 0x72, 0xdd] || signature == [0xa9, 0x05, 0x9c, 0xbb]

/-- `isKnownArbitrageContract`: hardcoded Uniswap V2/V3 and SushiSwap router
addresses. -/
def isKnownArbitrageContract (address : Nat) : Bool :=
  address == 0x7a250d5630B4cF539739dF2C5dAcb4c659F2488D ||
  address == 0x1b02dA8Cb0d097eB8D57A175b88c7D8b47997506 ||
  address == 0xE592427A0AEce92De3Edee1F18E0157C05861564

/-- `isKnownLiquidationContract`: hardcoded Aave / Compound addresses. -/
def isKnownLiquidationContract (address : Nat) : Bool :=
  address == 0x3ed3B47Dd13EC9a98b44e6204A523E766B225811 ||
  address == 0x7d2768dE32b0b80b7a3454c06BdAc94A69DDc7A9 ||
  address == 0x398eC7346DcD622eDc5ae82352F02bE94C62d119

/-- `isSandwichPattern`: gas price above 10 gwei, value above 1 ETH, or call data
with a DEX selector. -/
def isSandwichPattern (pht : PHTTransaction) : Bool :=
  pht.GasPrice > 10000000000 || pht.Value > 1000000000000000000 ||
  (!pht.CallData.isEmpty && hasDEXFunctionSignature pht.CallData)

/-- `isFrontRunPattern`: gas price above 50 gwei or call data with a
front-running selector. -/
def isFrontRunPattern (pht : PHTTransaction) : Bool :=
  pht.GasPrice > 50000000000 ||
  (!pht.CallData.isEmpty && hasFrontRunPattern pht.CallData)

/-- `isArbitragePattern`: arbitrage selector in the call data or a known
arbitrage contract as recipient. -/
def isArbitragePattern (pht : PHTTransaction) : Bool :=
  (!pht.CallData.isEmpty && hasArbitrageFunctionSignature pht.CallData) ||
  isKnownArbitrageContract pht.Recipient

/-- `isLiquidationPattern`: liquidation selector in the call data or a known
liquidation contract as recipient. -/
def isLiquidationPattern (pht : PHTTransaction) : Bool :=
  (!pht.CallData.isEmpty && hasLiquidationFunctionSignature pht.CallData) ||
  isKnownLiquidationContract pht.Recipient

/-- `isHighValuePattern`: value above 10 ETH. -/
def isHighValuePattern (pht : PHTTransaction) : Bool :=
  pht.Value > 10000000000000000000

/-- `isContractInteractionPattern`: non-empty call data. -/
def isContractInteractionPattern (pht : PHTTransaction) : Bool :=
  !pht.CallData.isEmpty

/-- The final clamp of a per-transaction score to `[0, 1]`. -/
def clampScore (s : ℚ) : ℚ :=
  if s < 0 then 0 else if s > 1 then 1 else s

/-- `analyzeTransaction`: start at 1.0, apply the fixed penalties for each matched
pattern (appending the corresponding attack labels), and clamp to `[0, 1]`. -/
def analyzeTransaction (pht : PHTTransaction) : ℚ × List String :=
  let s0 : ℚ := 1
  let s1 := if isSandwichPattern pht then s0 - 0.3 else s0
  let a1 := if isSandwichPattern pht then ["sandwich_attack"] else []
  let s2 := if isFrontRunPattern pht then s1 - 0.2 else s1
  let a2 := if isFrontRunPattern pht then a1 ++ ["front_running"] else a1
  let s3 := if isArbitragePattern pht then s2 - 0.1 else s2
  let a3 := if isArbitragePattern pht then a2 ++ ["arbitrage"] else a2
  let s4 := if isLiquidationPattern pht then s3 - 0.25 else s3
  let a4 := if isLiquidationPattern pht then a3 ++ ["liquidation"] else a3
  let s5 := if isHighValuePattern pht then s4 - 0.15 else s4
  let s6 := if isContractInteractionPattern pht then s5 - 0.1 else s5
  (clampScore s6, a4)

/-- `removeDuplicateAttacks`: keep the first occurrence of each label. -/
def removeDuplicateAttacks (attacks : List String) : List String :=
  attacks.foldl (fun result attack => if attack ∈ result then result else result ++ [attack]) []

/-- `DetectMEV`: score 1.0 with no attacks for an empty batch; otherwise the
average of the per-transaction scores and the deduplicated union of labels. -/
def DetectMEV (phts : List PHTTransaction) : ℚ × List String :=
  if phts.isEmpty then (1, [])
  else
    let analyzed := phts.map analyzeTransaction
    let totalScore := (analyzed.map Prod.fst).sum
    let detectedAttacks := (analyzed.map Prod.snd).flatten
    (totalScore / (phts.length : ℚ), removeDuplicateAttacks detectedAttacks)

end MEVDetector

/-! ## Validator selection (`validator.go`) -/

/-- `Validator`: stake, bounded reputation, activity flag and bookkeeping fields. -/
structure Validator where
  Address : Nat
  Stake : Int
  Reputation : Int
  IsActive : Bool
  LastBlock : Nat
  CreatedAt : Nat
  UpdatedAt : Nat
deriving DecidableEq

namespace WeightedRandomSelection

/-- The effective selection weight of a validator:
`stake * (reputation + 100)`. -/
def weight (v : Validator) : Int :=
  v.Stake * (v.Reputation + 100)

/-- The total weight accumulated over the active validators, in iteration order. -/
def totalWeight (validators : List (Nat × Validator)) : Int :=
  validators.foldl (fun acc av => if av.2.IsActive then acc + weight av.2 else acc) 0

/-- The weighted-selection scan: accumulate active validators' weights and return
the first address at which the running weight reaches `randomWeight`. -/
def selectLoop (randomWeight : Int) :
    List (Nat × Validator) → Int → Option Nat
  | [], _ => none
  | (address, v) :: rest, currentWeight =>
    if v.IsActive then
      let cw := currentWeight + weight v
      if cw ≥ randomWeight then some address else selectLoop randomWeight rest cw
    else selectLoop randomWeight rest currentWeight

/-- The fallback scan: the first active validator in iteration order. -/
def firstActive : List (Nat × Validator) → Option Nat
  | [] => none
  | (address, v) :: rest => if v.IsActive then some address else firstActive rest

/-- `SelectProposer`: error on an empty registry; error when the total active
weight is zero; otherwise the weighted scan with the random draw `randomWeight`
(Go draws it uniformly from `[0, totalWeight)`), falling back to the first active
validator. -/
def SelectProposer (validators : List (Nat × Validator)) (randomWeight : Int) :
    Except String Nat :=
  if validators.isEmpty then .error "no validators available"
  else if totalWeight validators = 0 then .error "no active validators"
  else
    match selectLoop randomWeight validators 0 with
    | some address => .ok address
    | none =>
      match firstActive validators with
      | some address => .ok address
      | none => .error "no active validators found"

end WeightedRandomSelection

/-! ## B1 / B2 blocks and the bounded cache (`block.go`) -/

/-- `B1Block`: header (nil-able, represented by its hash), PHT list, block type
tag, MEV score and attack labels, signature, timestamp and content hash. -/
structure B1Block where
  Header : Option Nat
  PHTs : List PHTTransaction
  BlockType : Nat
  MEVScore : ℚ
  DetectedAttacks : List String
  ValidatorSig : Bytes
  Timestamp : Nat
  BlockHash : Nat
deriving DecidableEq

/-- `B2Block`: header, MT list, block type tag, parent B1 reference, signature,
timestamp and content hash. -/
structure B2Block where
  Header : Option Nat
  MTs : List MTTransaction
  BlockType : Nat
  B1BlockHash : Nat
  ValidatorSig : Bytes
  Timestamp : Nat
  BlockHash : Nat
deriving DecidableEq

/-- The loop of `B1Block.Validate` over the PHTs: each PHT's hash must be
non-zero. -/
def checkPHTHashes : Nat → List PHTTransaction → Except String Unit
  | _, [] => .ok ()
  | i, pht :: rest =>
    if pht.hash = 0 then .error ("invalid PHT hash at index " ++ (Char.ofNat i).toString)
    else checkPHTHashes (i + 1) rest

/-- `B1Block.Validate`: header present, block type 1, non-empty PHTs with
non-zero hashes, MEV score in bounds, timestamp set and not in the future beyond
60 seconds (`now` models `time.Now().Unix()`). -/
def B1Block.Validate (now : Nat) (b : B1Block) : Except String Unit :=
  if b.Header = none then .error "missing header"
  else if b.BlockType ≠ 1 then .error "invalid block type for B1 block"
  else if b.PHTs.isEmpty then .error "no PHTs in B1 block"
  else
    match checkPHTHashes 0 b.PHTs with
    | .error e => .error e
    | .ok () =>
      if b.MEVScore < 0 ∨ b.MEVScore > 1 then .error "invalid MEV score"
      else if b.Timestamp = 0 then .error "missing timestamp"
      else if b.Timestamp > now + 60 then .error "timestamp in the future"
      else .ok ()

/-- The loop of `B2Block.Validate` over the MT/PHT pairs at equal positions: each
MT's hash must be non-zero and its `PHTHash` must equal the positional PHT's
hash. The caller has already checked that both lists have the same length, so the
second branch is unreachable there. -/
def checkMTPairs : Nat → List MTTransaction → List PHTTransaction → Except String Unit
  | _, [], _ => .ok ()
  | _, _ :: _, [] => .ok ()
  | i, mt :: mts, pht :: phts =>
    if mt.hash = 0 then .error ("invalid MT hash at index " ++ (Char.ofNat i).toString)
    else if mt.PHTHash ≠ pht.hash then
      .error ("PHT hash mismatch at index " ++ (Char.ofNat i).toString)
    else checkMTPairs (i + 1) mts phts

/-- `B2Block.Validate`: header present, block type 2, parent hash matching the
supplied B1 block, non-empty MTs, MT count equal to the parent's PHT count,
positional MT/PHT pairing, and timestamp set, not in the future, and strictly
after the parent's. -/
def B2Block.Validate (now : Nat) (b : B2Block) (b1Block : B1Block) : Except String Unit :=
  if b.Header = none then .error "missing header"
  else if b.BlockType ≠ 2 then .error "invalid block type for B2 block"
  else if b.B1BlockHash ≠ b1Block.BlockHash then .error "B1 block hash mismatch"
  else if b.MTs.isEmpty then .error "no MTs in B2 block"
  else if b.MTs.length ≠ b1Block.PHTs.length then .error "MT count mismatch with B1 PHTs"
  else
    match checkMTPairs 0 b.MTs b1Block.PHTs with
    | .error e => .error e
    | .ok () =>
      if b.Timestamp = 0 then .error "missing timestamp"
      else if b.Timestamp > now + 60 then .error "timestamp in the future"
      else if b.Timestamp ≤ b1Block.Timestamp then
        .error "B2 timestamp must be after B1 timestamp"
      else .ok ()

/-- `P2SCache`: bounded keyed stores for B1/B2 blocks, PHTs, MTs and raw
commitments. -/
structure P2SCache where
  b1Blocks : List (Nat × B1Block)
  b2Blocks : List (Nat × B2Block)
  phtCache : List (Nat × PHTTransaction)
  mtCache : List (Nat × MTTransaction)
  commitmentCache : List (String × Bytes)
  maxSize : Nat
deriving DecidableEq

/-- `NewP2SCache`: empty stores with the hardcoded capacity 1000. -/
def NewP2SCache : P2SCache :=
  ⟨[], [], [], [], [], 1000⟩

/-- Go map assignment `m[k] = v`: replace the entry if the key is present,
otherwise add it. -/
def mapInsert {α : Type} (k : Nat) (v : α) (l : List (Nat × α)) : List (Nat × α) :=
  if l.any (fun kv => kv.1 == k) then l.map (fun kv => if kv.1 == k then (k, v) else kv)
  else l ++ [(k, v)]

/-- Go map deletion `delete(m, k)`. -/
def mapDelete {α : Type} (k : Nat) (l : List (Nat × α)) : List (Nat × α) :=
  l.filter (fun kv => kv.1 ≠ k)

/-- The scan of `evictOldestPHT`: starting from the zero hash and the sentinel
`^uint64(0)`, keep the key of any entry whose timestamp is strictly below the
running minimum. -/
def findOldestPHT (l : List (Nat × PHTTransaction)) : Nat × Nat :=
  l.foldl (fun acc kv => if kv.2.Timestamp < acc.2 then (kv.1, kv.2.Timestamp) else acc)
    (0, 2 ^ 64 - 1)

/-- `evictOldestPHT`: delete the key selected by the scan (a no-op if the scan
never fired and the zero hash is not a key). -/
def evictOldestPHT (c : P2SCache) : P2SCache :=
  { c with phtCache := mapDelete (findOldestPHT c.phtCache).1 c.phtCache }

/-- `SetPHT`: evict first when the store is at capacity, then insert. -/
def SetPHT (c : P2SCache) (hash : Nat) (pht : PHTTransaction) : P2SCache :=
  let c := if c.phtCache.length ≥ c.maxSize then evictOldestPHT c else c
  { c with phtCache := mapInsert hash pht c.phtCache }

/-- `SetB1Block`: evict first when at capacity (same scan, on the B1 store),
stamp the block with its key, then insert. -/
def findOldestB1 (l : List (Nat × B1Block)) : Nat × Nat :=
  l.foldl (fun acc kv => if kv.2.Timestamp < acc.2 then (kv.1, kv.2.Timestamp) else acc)
    (0, 2 ^ 64 - 1)

/-- `evictOldestB1Block`. -/
def evictOldestB1Block (c : P2SCache) : P2SCache :=
  { c with b1Blocks := mapDelete (findOldestB1 c.b1Blocks).1 c.b1Blocks }

/-- `SetB1Block`. -/
def SetB1Block (c : P2SCache) (hash : Nat) (block : B1Block) : P2SCache :=
  let c := if c.b1Blocks.length ≥ c.maxSize then evictOldestB1Block c else c
  { c with b1Blocks := mapInsert hash { block with BlockHash := hash } c.b1Blocks }

/-! ## Consensus engine (`p2s.go`) -/

/-- `P2SConfig`. -/
structure P2SConfig where
  B1BlockTime : Nat
  B2BlockTime : Nat
  MinMEVScore : ℚ
  MaxMEVScore : ℚ
  MinStake : Int
  MaxValidators : Nat
  CommitmentScheme : String
  ProofSystem : String
deriving DecidableEq

/-- `DefaultP2SConfig`: 6-second slots, MEV score gate at 0.7, 1 ETH minimum
stake, at most 100 validators. -/
def DefaultP2SConfig : P2SConfig :=
  { B1BlockTime := 6, B2BlockTime := 6, MinMEVScore := 0.7, MaxMEVScore := 1.0,
    MinStake := 1000000000000000000, MaxValidators := 100,
    CommitmentScheme := "pedersen", ProofSystem := "merkle" }

/-- `P2SConsensus.prepareB1Block`, from the point where the pending transactions
have been fetched and converted: run the MEV detector over the batch, reject the
whole block if the aggregate score is below `MinMEVScore`, otherwise assemble the
B1 block, validate it, and store it in the cache keyed by the header hash. The
mempool fetch and PHT conversion (`getPendingTransactions` / `convertToPHTs`) are
modelled by the `phts` argument (the repository's `getPendingTransactions` stub
returns an empty slice). Returns the Go error (if any) and the resulting cache
state. -/
def prepareB1Block (now headerHash : Nat) (phts : List PHTTransaction)
    (config : P2SConfig) (cache : P2SCache) : Option String × P2SCache :=
  let scored := MEVDetector.DetectMEV phts
  if scored.1 < config.MinMEVScore then (some "insufficient MEV protection", cache)
  else
    let b1Block : B1Block :=
      { Header := some headerHash, PHTs := phts, BlockType := 1, MEVScore := scored.1,
        DetectedAttacks := scored.2, ValidatorSig := [], Timestamp := now, BlockHash := 0 }
    match b1Block.Validate now with
    | .error e => (some e, cache)
    | .ok () => (none, SetB1Block cache headerHash b1Block)

/-- The loop of `P2SConsensus.validateB2Block` over the cached B2 block's MTs:
an MT index beyond the parent's PHT list is an error, and each present pair must
pass `VerifyMT` (whose Merkle verification can panic). -/
def validateB2Loop : List MTTransaction → List PHTTransaction → GoRes Unit
  | [], _ => .ok ()
  | _ :: _, [] => .err "MT count exceeds PHT count"
  | mt :: mts, pht :: phts =>
    match MTManager.VerifyMT mt pht with
    | .panic => .panic
    | .err e => .err e
    | .ok () => validateB2Loop mts phts

/-- `P2SConsensus.validateB2Block`: look up the B2 block by the block hash, follow
its parent reference to the cached B1 block, and check the listed MT/PHT pairs.
No equality of MT and PHT counts is enforced here. -/
def validateB2Block (cache : P2SCache) (blockHash : Nat) : GoRes Unit :=
  match cache.b2Blocks.lookup blockHash with
  | none => .err "B2 block not found in cache"
  | some b2Block =>
    match cache.b1Blocks.lookup b2Block.B1BlockHash with
    | none => .err "corresponding B1 block not found"
    | some b1Block => validateB2Loop b2Block.MTs b1Block.PHTs

end P2S

namespace P2S

/-! ## Concrete example inputs used by witnesses and counterexamples -/

/-- A high-risk PHT: 60 gwei gas price triggers both the sandwich and the
front-running pattern, yielding per-transaction score `1 - 0.3 - 0.2 = 0.5`. -/
def phtHighRisk : PHTTransaction :=
  { Sender := 0, GasPrice := 60000000000, Commitment := [1], Nonce := [1], Timestamp := 1,
    Recipient := 0, Value := 0, CallData := [], TxType := 0, GasLimit := 0, TxHash := 0 }

/-- Example validator: active, but with zero stake, hence zero effective weight. -/
def validatorZeroStake : Validator :=
  { Address := 7, Stake := 0, Reputation := 0, IsActive := true,
    LastBlock := 0, CreatedAt := 0, UpdatedAt := 0 }

/-- Example validator: well-staked but inactive. -/
def validatorInactive : Validator :=
  { Address := 1, Stake := 5000000000000000000, Reputation := 0, IsActive := false,
    LastBlock := 0, CreatedAt := 0, UpdatedAt := 0 }

/-- Example low-risk PHT `A`. -/
def phtA : PHTTransaction :=
  { Sender := 0, GasPrice := 1, Commitment := [1], Nonce := [1], Timestamp := 1,
    Recipient := 0, Value := 0, CallData := [], TxType := 0, GasLimit := 0, TxHash := 0 }

/-- Example low-risk PHT `B`, differing from `A` only in the nonce (hence in its
hash). -/
def phtB : PHTTransaction :=
  { phtA with Nonce := [2] }

/-- Example MT revealing `phtA`. -/
def mtA : MTTransaction :=
  { Recipient := 0, Value := 0, CallData := [], TxType := 0, GasLimit := 0,
    PHTHash := phtA.hash, Proof := [1], Timestamp := 11, TxHash := 0 }

/-- Example MT revealing `phtB`. -/
def mtB : MTTransaction :=
  { mtA with PHTHash := phtB.hash }

/-- Example B1 block holding `[phtA, phtB]`. -/
def b1Ex : B1Block :=
  { Header := some 5, PHTs := [phtA, phtB], BlockType := 1, MEVScore := 1,
    DetectedAttacks := [], ValidatorSig := [], Timestamp := 10, BlockHash := 77 }

/-- Example B2 block correctly pairing `[mtA, mtB]` with `b1Ex`. -/
def b2Ex : B2Block :=
  { Header := some 6, MTs := [mtA, mtB], BlockType := 2, B1BlockHash := 77,
    ValidatorSig := [], Timestamp := 11, BlockHash := 99 }

/-- `b2Ex` with its timestamp lowered to its parent's timestamp. -/
def b2ExEqualTs : B2Block :=
  { b2Ex with Timestamp := 10 }

/-- Example B2 block with an empty MT list, referencing `b1Ex` (which has two
PHTs) as parent. -/
def b2ExEmpty : B2Block :=
  { Header := some 6, MTs := [], BlockType := 2, B1BlockHash := 77,
    ValidatorSig := [], Timestamp := 11, BlockHash := 100 }

/-- Example cache holding `b1Ex` under its hash 77 and `b2ExEmpty` under 100. -/
def cacheEx : P2SCache :=
  { b1Blocks := [(77, b1Ex)], b2Blocks := [(100, b2ExEmpty)], phtCache := [],
    mtCache := [], commitmentCache := [], maxSize := 1000 }

/-- Example PHT carrying the maximal `uint64` timestamp — equal to the eviction
scan's sentinel. -/
def phtTsMax : PHTTransaction :=
  { Sender := 0, GasPrice := 1, Commitment := [], Nonce := [], Timestamp := 2 ^ 64 - 1,
    Recipient := 0, Value := 0, CallData := [], TxType := 0, GasLimit := 0, TxHash := 0 }

/-- A cache at its full capacity of 1000, every entry timestamped `2^64 - 1`. -/
def cacheFullMax : P2SCache :=
  { NewP2SCache with phtCache := (List.range 1000).map (fun i => (i + 1, phtTsMax)) }

/-- Example PHT with timestamp 10. -/
def phtT10 : PHTTransaction :=
  { phtTsMax with Timestamp := 10 }

/-- Example PHT with timestamp 20. -/
def phtT20 : PHTTransaction :=
  { phtTsMax with Timestamp := 20 }

/-- Example PHT with timestamp 30. -/
def phtT30 : PHTTransaction :=
  { phtTsMax with Timestamp := 30 }

/-- A capacity-2 cache holding entries timestamped 10 and 20. -/
def cacheTwo : P2SCache :=
  { NewP2SCache with phtCache := [(1, phtT10), (2, phtT20)], maxSize := 2 }

end P2S

namespace P2S

/-! ## Helper lemmas about the MEV analyzer -/

theorem clampScore_nonneg (s : ℚ) : 0 ≤ MEVDetector.clampScore s := by
  unfold MEVDetector.clampScore
  split_ifs <;> linarith

theorem clampScore_le_one (s : ℚ) : MEVDetector.clampScore s ≤ 1 := by
  unfold MEVDetector.clampScore
  split_ifs <;> linarith

theorem analyzeTransaction_score_nonneg (pht : PHTTransaction) :
    0 ≤ (MEVDetector.analyzeTransaction pht).1 := by
  simp only [MEVDetector.analyzeTransaction]
  exact clampScore_nonneg _

theorem analyzeTransaction_score_le_one (pht : PHTTransaction) :
    (MEVDetector.analyzeTransaction pht).1 ≤ 1 := by
  simp only [MEVDetector.analyzeTransaction]
  exact clampScore_le_one _

theorem list_sum_le_length (l : List ℚ) (h : ∀ x ∈ l, x ≤ 1) :
    l.sum ≤ (l.length : ℚ) := by
  induction l with
  | nil => simp
  | cons x xs ih =>
    have hx := h x (List.mem_cons_self x xs)
    have hxs := ih (fun y hy => h y (List.mem_cons_of_mem x hy))
    simp only [List.sum_cons, List.length_cons]
    push_cast
    linarith

end P2S

namespace P2S

/-- Claim C7: for every batch of PHTs (including the empty batch), `DetectMEV`
returns an aggregate score in `[0, 1]`; each per-transaction score produced by
`analyzeTransaction` is clamped to `[0, 1]`; and for every non-empty batch the
aggregate score equals the arithmetic mean of the per-transaction scores. -/
theorem detectMEV_mean_and_bounded (phts : List PHTTransaction) :
    (0 ≤ (MEVDetector.DetectMEV phts).1 ∧ (MEVDetector.DetectMEV phts).1 ≤ 1) ∧
    (∀ pht : PHTTransaction,
      0 ≤ (MEVDetector.analyzeTransaction pht).1 ∧
        (MEVDetector.analyzeTransaction pht).1 ≤ 1) ∧
    (phts ≠ [] →
      (MEVDetector.DetectMEV phts).1 =
        (phts.map (fun p => (MEVDetector.analyzeTransaction p).1)).sum /
          (phts.length : ℚ)) := by
  refine ⟨?_, fun pht => ⟨analyzeTransaction_score_nonneg pht, analyzeTransaction_score_le_one pht⟩, ?_⟩
  · rcases eq_or_ne phts [] with h | h
    · subst h
      constructor <;> norm_num [MEVDetector.DetectMEV]
    · have hne : ¬ phts.isEmpty := by simpa [List.isEmpty_iff] using h
      have hlen : (0 : ℚ) < (phts.length : ℚ) := by
        have : 0 < phts.length := List.length_pos.mpr h
        exact_mod_cast this
      simp only [MEVDetector.DetectMEV, hne, Bool.false_eq_true, if_false, List.map_map]
      constructor
      · apply div_nonneg _ hlen.le
        apply List.sum_nonneg
        intro x hx
        rcases List.mem_map.mp hx with ⟨p, _, rfl⟩
        exact analyzeTransaction_score_nonneg p
      · rw [div_le_one hlen]
        have := list_sum_le_length (phts.map (fun p => (MEVDetector.analyzeTransaction p).1))
          (by
            intro x hx
            rcases List.mem_map.mp hx with ⟨p, _, rfl⟩
            exact analyzeTransaction_score_le_one p)
        simpa using this
  · intro h
    have hne : ¬ phts.isEmpty := by simpa [List.isEmpty_iff] using h
    simp only [MEVDetector.DetectMEV, hne, Bool.false_eq_true, if_false, List.map_map]
    rfl

/-- Witness for C7 at the concrete one-element batch `[phtHighRisk]`. -/
theorem detectMEV_mean_and_bounded_witness :
    ([phtHighRisk] : List PHTTransaction) ≠ [] ∧
    (MEVDetector.DetectMEV [phtHighRisk]).1 =
      ([phtHighRisk].map (fun p => (MEVDetector.analyzeTransaction p).1)).sum /
        (([phtHighRisk].length : Nat) : ℚ) :=
  ⟨by simp, (detectMEV_mean_and_bounded [phtHighRisk]).2.2 (by simp)⟩

end P2S

namespace P2S

/-- Claim C9: `DetectMEV` on an empty PHT list returns score exactly 1.0 and an
empty attack list, so an empty batch always passes the MEV admission-gate
comparison of `prepareB1Block` for any configured minimum score not exceeding
1.0 (the build then fails later, on the structural non-empty-PHTs check, not on
the gate). -/
theorem detectMEV_empty_passes_gate :
    MEVDetector.DetectMEV [] = (1, []) ∧
    (∀ config : P2SConfig, config.MinMEVScore ≤ 1 →
      ¬ (MEVDetector.DetectMEV ([] : List PHTTransaction)).1 < config.MinMEVScore) ∧
    (∀ (now headerHash : Nat) (config : P2SConfig) (cache : P2SCache),
      config.MinMEVScore ≤ 1 →
      (prepareB1Block now headerHash [] config cache).1 ≠
        some "insufficient MEV protection") := by
  have hdet : MEVDetector.DetectMEV ([] : List PHTTransaction) = (1, []) := rfl
  refine ⟨hdet, ?_, ?_⟩
  · intro config h
    rw [hdet]
    exact not_lt.mpr h
  · intro now headerHash config cache h
    have hgate : ¬ (MEVDetector.DetectMEV ([] : List PHTTransaction)).1 < config.MinMEVScore := by
      rw [hdet]; exact not_lt.mpr h
    simp only [prepareB1Block, hgate, if_false]
    simp [B1Block.Validate]

/-- Witness for C9 at the default configuration (minimum score 0.7). -/
theorem detectMEV_empty_passes_gate_witness :
    DefaultP2SConfig.MinMEVScore ≤ 1 ∧
    ¬ (MEVDetector.DetectMEV ([] : List PHTTransaction)).1 < DefaultP2SConfig.MinMEVScore ∧
    (prepareB1Block 100 42 [] DefaultP2SConfig NewP2SCache).1 ≠
      some "insufficient MEV protection" := by
  have h : DefaultP2SConfig.MinMEVScore ≤ 1 := by norm_num [DefaultP2SConfig]
  exact ⟨h, detectMEV_empty_passes_gate.2.1 DefaultP2SConfig h,
    detectMEV_empty_passes_gate.2.2 100 42 DefaultP2SConfig NewP2SCache h⟩

/-- Claim C4: whenever the aggregate MEV score computed by `DetectMEV` over the
converted batch is strictly below the configured `MinMEVScore`, `prepareB1Block`
returns the admission-control error and the cache is unchanged — no B1 block is
stored by the failed build. -/
theorem prepareB1Block_mev_gate (now headerHash : Nat) (phts : List PHTTransaction)
    (config : P2SConfig) (cache : P2SCache)
    (h : (MEVDetector.DetectMEV phts).1 < config.MinMEVScore) :
    prepareB1Block now headerHash phts config cache =
      (some "insufficient MEV protection", cache) := by
  simp only [prepareB1Block, h, if_true]

/-- Witness for C4: a batch of one 60-gwei transaction scores 0.5, below the
default minimum 0.7, and the build leaves the fresh cache untouched. -/
theorem prepareB1Block_mev_gate_witness :
    (MEVDetector.DetectMEV [phtHighRisk]).1 < DefaultP2SConfig.MinMEVScore ∧
    prepareB1Block 100 42 [phtHighRisk] DefaultP2SConfig NewP2SCache =
      (some "insufficient MEV protection", NewP2SCache) := by
  have hscore : (MEVDetector.DetectMEV [phtHighRisk]).1 < DefaultP2SConfig.MinMEVScore := by
    have hsand : MEVDetector.isSandwichPattern phtHighRisk = true := by decide
    have hfront : MEVDetector.isFrontRunPattern phtHighRisk = true := by decide
    have harb : MEVDetector.isArbitragePattern phtHighRisk = false := by decide
    have hliq : MEVDetector.isLiquidationPattern phtHighRisk = false := by decide
    have hhigh : MEVDetector.isHighValuePattern phtHighRisk = false := by decide
    have hco : MEVDetector.isContractInteractionPattern phtHighRisk = false := by decide
    simp only [MEVDetector.DetectMEV, MEVDetector.analyzeTransaction, hsand, hfront, harb,
      hliq, hhigh, hco, if_true, if_false, List.isEmpty_cons, Bool.false_eq_true,
      List.map_cons, List.map_nil, List.sum_cons, List.sum_nil, List.length_cons,
      List.length_nil, DefaultP2SConfig]
    norm_num [MEVDetector.clampScore]
  exact ⟨hscore, prepareB1Block_mev_gate 100 42 [phtHighRisk] DefaultP2SConfig NewP2SCache hscore⟩

end P2S

namespace P2S

/-! ## Pedersen commitment lemmas (C2) and Merkle proof system results (C1) -/

theorem pedersen_commit_ok (F : List Bytes) (h : F ≠ []) :
    PedersenCommitment.Commit F =
      .ok (natToBytes (pedersenGenerator ^ bytesToNat (sha256 F.flatten) % secp256k1P)) := by
  unfold PedersenCommitment.Commit
  simp [h]

theorem pedersen_roundtrip_map (F : List Bytes) (h : F ≠ []) :
    (PedersenCommitment.Commit F).map (fun c => PedersenCommitment.Verify c F) = .ok true := by
  rw [pedersen_commit_ok F h]
  simp only [Except.map]
  unfold PedersenCommitment.Verify
  rw [pedersen_commit_ok F h]
  simp

/-- Claim C2 (amended): `Verify (Commit F) F = true` for every non-empty field
list, but the commitment depends only on the concatenation of the fields: two
non-empty field lists with equal concatenated bytes receive the same commitment,
and each verifies against the other's commitment — so binding fails for
distinct lists that concatenate to the same bytes, and can hold at most for
lists with distinct concatenations. -/
theorem pedersen_commit_flatten_determined (F1 F2 : List Bytes)
    (h1 : F1 ≠ []) (h2 : F2 ≠ []) (hj : F1.flatten = F2.flatten) :
    PedersenCommitment.Commit F1 = PedersenCommitment.Commit F2 ∧
    ∀ c, PedersenCommitment.Commit F1 = .ok c →
      PedersenCommitment.Verify c F1 = true ∧ PedersenCommitment.Verify c F2 = true := by
  have hcomm : PedersenCommitment.Commit F1 = PedersenCommitment.Commit F2 := by
    rw [pedersen_commit_ok F1 h1, pedersen_commit_ok F2 h2, hj]
  refine ⟨hcomm, fun c hc => ⟨?_, ?_⟩⟩
  · have := pedersen_roundtrip_map F1 h1
    rw [hc] at this
    simpa [Except.map] using this
  · have := pedersen_roundtrip_map F2 h2
    rw [← hcomm, hc] at this
    simpa [Except.map] using this

/-- Witness for the amended C2 at the split pair `[[1,2]]` / `[[1],[2]]`. -/
theorem pedersen_commit_flatten_determined_witness :
    ([[1, 2]] : List Bytes) ≠ [] ∧ ([[1], [2]] : List Bytes) ≠ [] ∧
    ([[1, 2]] : List Bytes).flatten = ([[1], [2]] : List Bytes).flatten ∧
    PedersenCommitment.Commit [[1, 2]] = PedersenCommitment.Commit [[1], [2]] :=
  ⟨by simp, by simp, rfl,
    (pedersen_commit_flatten_determined [[1, 2]] [[1], [2]] (by simp) (by simp) rfl).1⟩

/-- Counterexample to C2 as stated: the distinct field lists `[[1,2]]` and
`[[1],[2]]` concatenate to the same bytes, so they receive the same commitment
and `Verify(Commit([[1,2]]), [[1],[2]])` is `true`, refuting both the binding
claim and the cross-verification-fails claim. -/
theorem pedersen_binding_counterexample :
    ([[1, 2]] : List Bytes) ≠ [[1], [2]] ∧
    PedersenCommitment.Commit [[1, 2]] = PedersenCommitment.Commit [[1], [2]] ∧
    (PedersenCommitment.Commit [[1, 2]]).map
      (fun c => PedersenCommitment.Verify c [[1], [2]]) = .ok true := by
  have hflat : ([[1, 2]] : List Bytes).flatten = ([[1], [2]] : List Bytes).flatten := by simp
  have hc : PedersenCommitment.Commit [[1, 2]] = PedersenCommitment.Commit [[1], [2]] := by
    rw [pedersen_commit_ok [[1, 2]] (by simp), pedersen_commit_ok [[1], [2]] (by simp), hflat]
  refine ⟨by simp, hc, ?_⟩
  rw [hc]
  exact pedersen_roundtrip_map [[1], [2]] (by simp)

/-- Claim C1 (refuted by the code): `MerkleProofSystem.Prove` never succeeds on a
field list of two or more entries — `buildMerkleTree` computes the child indices
of internal node `i` as `2*i - len(padded)` instead of `2*(i - len(padded))` and
reads past the end of the tree slice, a Go runtime panic. In particular
`MTManager.CreateMT`, which always proves the five hidden fields, panics on
every PHT (the repository's own `TestMTManager` exercises this path and expects
success). -/
theorem merkle_prove_panics :
    (∀ commitment : Bytes, MerkleProofSystem.Prove commitment [[1], [2]] = .panic) ∧
    (∀ (now : Nat) (pht : PHTTransaction), MTManager.CreateMT now pht = .panic) := by
  constructor
  · intro commitment
    rfl
  · intro now pht
    rfl

end P2S

namespace P2S

/-! ## Validator selection results (C3) -/

theorem totalWeight_acc (validators : List (Nat × Validator)) (acc : Int)
    (h : ∀ av ∈ validators, av.2.IsActive = false) :
    validators.foldl (fun acc av =>
      if av.2.IsActive then acc + WeightedRandomSelection.weight av.2 else acc) acc = acc := by
  induction validators generalizing acc with
  | nil => rfl
  | cons hd tl ih =>
    have hhd := h hd (List.mem_cons_self hd tl)
    simp only [List.foldl_cons, hhd, Bool.false_eq_true, if_false]
    exact ih acc (fun av hav => h av (List.mem_cons_of_mem hd hav))

theorem firstActive_some (validators : List (Nat × Validator))
    (h : ∃ av ∈ validators, av.2.IsActive = true) :
    ∃ a, WeightedRandomSelection.firstActive validators = some a := by
  induction validators with
  | nil => simp at h
  | cons hd tl ih =>
    by_cases hhd : hd.2.IsActive = true
    · exact ⟨hd.1, by simp [WeightedRandomSelection.firstActive, hhd]⟩
    · rcases h with ⟨av, hav, hact⟩
      rcases List.mem_cons.mp hav with rfl | hmem
      · exact absurd hact hhd
      · rcases ih ⟨av, hmem, hact⟩ with ⟨a, ha⟩
        exact ⟨a, by simp [WeightedRandomSelection.firstActive, hhd, ha]⟩

/-- Claim C3 (amended): when the computed total effective weight of the active
validators is zero — in particular when active validators exist but all have zero
weight — `SelectProposer` returns the `no active validators` error rather than
falling back to the first active validator; and whenever the total weight is
non-zero it returns some proposer without error. -/
theorem selectProposer_zero_weight (validators : List (Nat × Validator)) (randomWeight : Int) :
    (validators ≠ [] → WeightedRandomSelection.totalWeight validators = 0 →
      WeightedRandomSelection.SelectProposer validators randomWeight =
        .error "no active validators") ∧
    (WeightedRandomSelection.totalWeight validators ≠ 0 →
      ∃ a, WeightedRandomSelection.SelectProposer validators randomWeight = .ok a) := by
  constructor
  · intro hne hw
    unfold WeightedRandomSelection.SelectProposer
    simp [hne, hw]
  · intro hw
    have hne : validators ≠ [] := by
      rintro rfl
      exact hw rfl
    have hactive : ∃ av ∈ validators, av.2.IsActive = true := by
      by_contra hno
      push_neg at hno
      refine hw ?_
      exact totalWeight_acc validators 0 (fun av hav => by
        simpa using hno av hav)
    unfold WeightedRandomSelection.SelectProposer
    simp only [List.isEmpty_eq_true, hne, if_false, hw, ite_false]
    cases hsel : WeightedRandomSelection.selectLoop randomWeight validators 0 with
    | some a => exact ⟨a, by simp⟩
    | none =>
      rcases firstActive_some validators hactive with ⟨a, ha⟩
      exact ⟨a, by simp [ha]⟩

/-- Witness for the amended C3: a registry with one inactive staked validator and
one active zero-stake validator has total weight zero and yields the
`no active validators` error. -/
theorem selectProposer_zero_weight_witness :
    ([(1, validatorInactive), (7, validatorZeroStake)] : List (Nat × Validator)) ≠ [] ∧
    WeightedRandomSelection.totalWeight [(1, validatorInactive), (7, validatorZeroStake)] = 0 ∧
    WeightedRandomSelection.SelectProposer [(1, validatorInactive), (7, validatorZeroStake)] 3 =
      .error "no active validators" :=
  ⟨by simp, by decide,
    (selectProposer_zero_weight [(1, validatorInactive), (7, validatorZeroStake)] 3).1
      (by simp) (by decide)⟩

/-- Counterexample to C3 as stated: a registry whose only validator is active
with zero stake makes `SelectProposer` return the `no active validators` error —
it does not fall back to the first active validator, and the error is returned
even though a validator is active. -/
theorem selectProposer_zero_weight_counterexample :
    validatorZeroStake.IsActive = true ∧
    WeightedRandomSelection.SelectProposer [(7, validatorZeroStake)] 0 =
      .error "no active validators" :=
  ⟨rfl, rfl⟩

end P2S

namespace P2S

/-! ## B2 validation results (C5, C6) -/

theorem checkMTPairs_cons_eq (i : Nat) (mt : MTTransaction) (mts : List MTTransaction)
    (pht : PHTTransaction) (phts : List PHTTransaction) :
    checkMTPairs i (mt :: mts) (pht :: phts) =
      if mt.hash = 0 then .error ("invalid MT hash at index " ++ (Char.ofNat i).toString)
      else if mt.PHTHash ≠ pht.hash then
        .error ("PHT hash mismatch at index " ++ (Char.ofNat i).toString)
      else checkMTPairs (i + 1) mts phts := rfl

theorem checkMTPairs_ok_spec (mts : List MTTransaction) :
    ∀ (i : Nat) (phts : List PHTTransaction), checkMTPairs i mts phts = .ok () →
      ∀ j, j < mts.length → j < phts.length →
        (mts.getD j default).PHTHash = (phts.getD j default).hash := by
  induction mts with
  | nil =>
    intro i phts _ j hj _
    simp at hj
  | cons mt mts ih =>
    intro i phts h j hj1 hj2
    cases phts with
    | nil => simp at hj2
    | cons pht phts =>
      rw [checkMTPairs_cons_eq] at h
      by_cases hh : mt.hash = 0
      · rw [if_pos hh] at h
        exact Except.noConfusion h
      · rw [if_neg hh] at h
        by_cases hp : mt.PHTHash ≠ pht.hash
        · rw [if_pos hp] at h
          exact Except.noConfusion h
        · rw [if_neg hp] at h
          cases j with
          | zero => simpa using not_ne_iff.mp hp
          | succ j =>
            have := ih (i + 1) phts h j (by simpa using hj1) (by simpa using hj2)
            simpa using this

theorem b2_validate_ok_spec (now : Nat) (b : B2Block) (b1 : B1Block)
    (h : B2Block.Validate now b b1 = .ok ()) :
    b.MTs.length = b1.PHTs.length ∧
    checkMTPairs 0 b.MTs b1.PHTs = .ok () ∧
    b1.Timestamp < b.Timestamp := by
  unfold B2Block.Validate at h
  cases hc : checkMTPairs 0 b.MTs b1.PHTs with
  | error e =>
    simp only [hc] at h
    split_ifs at h
  | ok u =>
    cases u
    simp only [hc] at h
    split_ifs at h with h1 h2 h3 h4 h5 h6 h7 h8
    exact ⟨not_ne_iff.mp h5, rfl, by omega⟩

/-- Claim C5: `B2Block.Validate` succeeds only if the MT count equals the
parent's PHT count and the MT at each position carries exactly the hash of the
PHT at the same position; consequently, for a valid pair whose PHT hashes are
pairwise distinct, re-indexing the MT list by any map that moves some position
(in particular any non-identity permutation) makes validation fail. -/
theorem b2_validate_positional_pairing (now : Nat) (b : B2Block) (b1 : B1Block) :
    (B2Block.Validate now b b1 = .ok () →
      b.MTs.length = b1.PHTs.length ∧
      ∀ i, i < b.MTs.length →
        (b.MTs.getD i default).PHTHash = (b1.PHTs.getD i default).hash) ∧
    (∀ (σ : Nat → Nat) (l' : List MTTransaction) (i₀ : Nat),
      B2Block.Validate now b b1 = .ok () →
      (b1.PHTs.map PHTTransaction.hash).Nodup →
      l'.length = b.MTs.length →
      (∀ i, i < l'.length → σ i < b.MTs.length) →
      (∀ i, i < l'.length → l'.getD i default = b.MTs.getD (σ i) default) →
      i₀ < l'.length → σ i₀ ≠ i₀ →
      B2Block.Validate now { b with MTs := l' } b1 ≠ .ok ()) := by
  constructor
  · intro h
    rcases b2_validate_ok_spec now b b1 h with ⟨hlen, hpairs, -⟩
    exact ⟨hlen, fun i hi =>
      checkMTPairs_ok_spec b.MTs 0 b1.PHTs hpairs i hi (hlen ▸ hi)⟩
  · intro σ l' i₀ hok hnd hlen hσ hperm hi₀ hmove hok'
    rcases b2_validate_ok_spec now b b1 hok with ⟨hlenb, hpairsb, -⟩
    rcases b2_validate_ok_spec now { b with MTs := l' } b1 hok' with ⟨hlen', hpairs', -⟩
    simp only at hlen' hpairs'
    have hi₀b : i₀ < b1.PHTs.length := hlen' ▸ hi₀
    have hσi₀ : σ i₀ < b.MTs.length := hσ i₀ hi₀
    have hσi₀p : σ i₀ < b1.PHTs.length := hlenb ▸ hσi₀
    have e1 : (l'.getD i₀ default).PHTHash = (b1.PHTs.getD i₀ default).hash :=
      checkMTPairs_ok_spec l' 0 b1.PHTs hpairs' i₀ hi₀ hi₀b
    have e2 : (b.MTs.getD (σ i₀) default).PHTHash = (b1.PHTs.getD (σ i₀) default).hash :=
      checkMTPairs_ok_spec b.MTs 0 b1.PHTs hpairsb (σ i₀) hσi₀ hσi₀p
    have e3 : (b1.PHTs.getD (σ i₀) default).hash = (b1.PHTs.getD i₀ default).hash := by
      rw [← e2, ← hperm i₀ hi₀, e1]
    have hinj := List.nodup_iff_injective_get.mp hnd
    have e4 : (b1.PHTs.map PHTTransaction.hash).get
        ⟨σ i₀, by simpa using hσi₀p⟩ =
        (b1.PHTs.map PHTTransaction.hash).get ⟨i₀, by simpa using hi₀b⟩ := by
      simp only [List.get_eq_getElem, List.getElem_map]
      rw [← List.getD_eq_getElem b1.PHTs default hσi₀p, ← List.getD_eq_getElem b1.PHTs default hi₀b]
      exact e3
    have := hinj e4
    exact hmove (by simpa using this)

/-- Witness for C5: the concrete pair `b1Ex`/`b2Ex` validates, the two PHT hashes
are distinct, and swapping the two MTs (the map `i ↦ 1 - i`) makes validation
fail. -/
theorem b2_validate_positional_pairing_witness :
    B2Block.Validate 0 b2Ex b1Ex = .ok () ∧
    (b1Ex.PHTs.map PHTTransaction.hash).Nodup ∧
    ([mtB, mtA] : List MTTransaction).length = b2Ex.MTs.length ∧
    (∀ i, i < ([mtB, mtA] : List MTTransaction).length → 1 - i < b2Ex.MTs.length) ∧
    (∀ i, i < ([mtB, mtA] : List MTTransaction).length →
      ([mtB, mtA] : List MTTransaction).getD i default = b2Ex.MTs.getD (1 - i) default) ∧
    0 < ([mtB, mtA] : List MTTransaction).length ∧ (1 - 0 : Nat) ≠ 0 ∧
    B2Block.Validate 0 { b2Ex with MTs := [mtB, mtA] } b1Ex ≠ .ok () := by
  have h1 : B2Block.Validate 0 b2Ex b1Ex = .ok () := by rfl
  have h2 : (b1Ex.PHTs.map PHTTransaction.hash).Nodup := by decide
  have h3 : ([mtB, mtA] : List MTTransaction).length = b2Ex.MTs.length := rfl
  have h4 : ∀ i, i < ([mtB, mtA] : List MTTransaction).length → 1 - i < b2Ex.MTs.length := by
    decide
  have h5 : ∀ i, i < ([mtB, mtA] : List MTTransaction).length →
      ([mtB, mtA] : List MTTransaction).getD i default = b2Ex.MTs.getD (1 - i) default := by
    decide
  exact ⟨h1, h2, h3, h4, h5, by decide, by decide,
    (b2_validate_positional_pairing 0 b2Ex b1Ex).2 (fun i => 1 - i) [mtB, mtA] 0
      h1 h2 h3 h4 h5 (by decide) (by decide)⟩

/-- Claim C6: a B2 block whose timestamp does not strictly exceed its parent B1
block's timestamp is always rejected by `B2Block.Validate`. -/
theorem b2_validate_timestamp_ordering (now : Nat) (b : B2Block) (b1 : B1Block)
    (h : b.Timestamp ≤ b1.Timestamp) :
    B2Block.Validate now b b1 ≠ .ok () := by
  intro hok
  have := (b2_validate_ok_spec now b b1 hok).2.2
  omega

/-- Witness for C6 at a concrete pair with equal timestamps. -/
theorem b2_validate_timestamp_ordering_witness :
    b2ExEqualTs.Timestamp ≤ b1Ex.Timestamp ∧
    B2Block.Validate 0 b2ExEqualTs b1Ex ≠ .ok () :=
  ⟨by decide, b2_validate_timestamp_ordering 0 b2ExEqualTs b1Ex (by decide)⟩

end P2S

namespace P2S

/-! ## Consensus-engine B2 validation results (C10) -/

theorem validateB2Loop_ok (mts : List MTTransaction) :
    ∀ phts : List PHTTransaction, mts.length ≤ phts.length →
      (∀ i, i < mts.length →
        MTManager.VerifyMT (mts.getD i default) (phts.getD i default) = .ok ()) →
      validateB2Loop mts phts = .ok () := by
  induction mts with
  | nil => intro phts _ _; rfl
  | cons mt mts ih =>
    intro phts hlen h
    cases phts with
    | nil => simp at hlen
    | cons pht phts =>
      have h0 := h 0 (by simp)
      simp only [List.getD_cons_zero] at h0
      unfold validateB2Loop
      rw [h0]
      exact ih phts (by simpa using hlen) (fun i hi => by
        have := h (i + 1) (by simpa using hi)
        simpa using this)

/-- Claim C10: the consensus engine's `validateB2Block` never enforces equality
of MT and PHT counts — whenever the cached B2 block's MT list is a count-wise
strict prefix of its parent's PHT list and every listed pair passes `VerifyMT`,
it returns no error, even though the parent has unrevealed PHTs; the
length-equality check exists only in `B2Block.Validate`, which always rejects a
pair with differing counts. -/
theorem validateB2Block_no_count_check :
    (∀ (cache : P2SCache) (blockHash : Nat) (b2 : B2Block) (b1 : B1Block),
      cache.b2Blocks.lookup blockHash = some b2 →
      cache.b1Blocks.lookup b2.B1BlockHash = some b1 →
      b2.MTs.length < b1.PHTs.length →
      (∀ i, i < b2.MTs.length →
        MTManager.VerifyMT (b2.MTs.getD i default) (b1.PHTs.getD i default) = .ok ()) →
      validateB2Block cache blockHash = .ok ()) ∧
    (∀ (now : Nat) (b : B2Block) (b1 : B1Block),
      b.MTs.length ≠ b1.PHTs.length → B2Block.Validate now b b1 ≠ .ok ()) := by
  constructor
  · intro cache blockHash b2 b1 h2 h1 hlen hpairs
    unfold validateB2Block
    simp only [h2, h1]
    exact validateB2Loop_ok b2.MTs b1.PHTs hlen.le hpairs
  · intro now b b1 hne hok
    exact hne (b2_validate_ok_spec now b b1 hok).1

/-- Witness for C10: a cached B2 block with zero MTs against a parent with two
PHTs passes the engine's `validateB2Block`, while `B2Block.Validate` rejects the
same pair. -/
theorem validateB2Block_no_count_check_witness :
    cacheEx.b2Blocks.lookup 100 = some b2ExEmpty ∧
    cacheEx.b1Blocks.lookup b2ExEmpty.B1BlockHash = some b1Ex ∧
    b2ExEmpty.MTs.length < b1Ex.PHTs.length ∧
    validateB2Block cacheEx 100 = .ok () ∧
    b2ExEmpty.MTs.length ≠ b1Ex.PHTs.length ∧
    B2Block.Validate 0 b2ExEmpty b1Ex ≠ .ok () := by
  have h2 : cacheEx.b2Blocks.lookup 100 = some b2ExEmpty := rfl
  have h1 : cacheEx.b1Blocks.lookup b2ExEmpty.B1BlockHash = some b1Ex := rfl
  have hlen : b2ExEmpty.MTs.length < b1Ex.PHTs.length := by decide
  have hne : b2ExEmpty.MTs.length ≠ b1Ex.PHTs.length := by decide
  exact ⟨h2, h1, hlen,
    validateB2Block_no_count_check.1 cacheEx 100 b2ExEmpty b1Ex h2 h1 hlen
      (fun i hi => by simp [b2ExEmpty] at hi),
    hne, validateB2Block_no_count_check.2 0 b2ExEmpty b1Ex hne⟩

end P2S

namespace P2S

/-! ## Cache eviction results (C8) -/

theorem findOldestPHT_fold_spec (l : List (Nat × PHTTransaction)) :
    ∀ acc : Nat × Nat,
      (l.foldl (fun acc kv => if kv.2.Timestamp < acc.2 then (kv.1, kv.2.Timestamp) else acc)
          acc = acc ∨
        ∃ kv ∈ l,
          l.foldl (fun acc kv => if kv.2.Timestamp < acc.2 then (kv.1, kv.2.Timestamp) else acc)
            acc = (kv.1, kv.2.Timestamp)) ∧
      (l.foldl (fun acc kv => if kv.2.Timestamp < acc.2 then (kv.1, kv.2.Timestamp) else acc)
          acc).2 ≤ acc.2 ∧
      (∀ kv ∈ l,
        (l.foldl (fun acc kv => if kv.2.Timestamp < acc.2 then (kv.1, kv.2.Timestamp) else acc)
          acc).2 ≤ kv.2.Timestamp) := by
  induction l with
  | nil => exact fun acc => ⟨Or.inl rfl, le_refl _, by simp⟩
  | cons hd tl ih =>
    intro acc
    simp only [List.foldl_cons]
    rcases ih (if hd.2.Timestamp < acc.2 then (hd.1, hd.2.Timestamp) else acc) with
      ⟨hcase, hle, hall⟩
    have hacc : (if hd.2.Timestamp < acc.2 then (hd.1, hd.2.Timestamp) else acc).2 ≤ acc.2 := by
      split_ifs with hlt
      · exact le_of_lt hlt
      · exact le_refl _
    have haccts :
        (if hd.2.Timestamp < acc.2 then (hd.1, hd.2.Timestamp) else acc).2 ≤ hd.2.Timestamp := by
      split_ifs with hlt
      · exact le_refl _
      · omega
    refine ⟨?_, le_trans hle hacc, ?_⟩
    · rcases hcase with heq | ⟨kv, hkv, heq⟩
      · by_cases hlt : hd.2.Timestamp < acc.2
        · right
          refine ⟨hd, List.mem_cons_self hd tl, ?_⟩
          rw [heq]
          simp [hlt]
        · left
          rw [heq]
          simp [hlt]
      · right
        exact ⟨kv, List.mem_cons_of_mem hd hkv, heq⟩
    · intro kv hkv
      rcases List.mem_cons.mp hkv with rfl | hmem
      · exact le_trans hle haccts
      · exact hall kv hmem

theorem mapDelete_not_mem (l : List (Nat × PHTTransaction)) (k : Nat) :
    ∀ kv ∈ mapDelete k l, kv.1 ≠ k := by
  intro kv hkv
  unfold mapDelete at hkv
  have := List.of_mem_filter hkv
  simpa using this

theorem mapDelete_length (l : List (Nat × PHTTransaction)) (m : Nat × PHTTransaction)
    (hm : m ∈ l) (hk : (l.map Prod.fst).Nodup) :
    (mapDelete m.1 l).length + 1 = l.length := by
  induction l with
  | nil => simp at hm
  | cons hd tl ih =>
    simp only [List.map_cons, List.nodup_cons] at hk
    rcases hk with ⟨hhd, htl⟩
    by_cases hcase : hd.1 = m.1
    · unfold mapDelete
      have hpred : (decide ¬ (hd.1 = m.1)) = false := by simpa using hcase
      simp only [ne_eq, List.filter_cons, hpred, Bool.false_eq_true, if_false, List.length_cons]
      have hkeep : List.filter (fun kv => decide ¬ (kv.1 = m.1)) tl = tl := by
        rw [List.filter_eq_self]
        intro kv hkv
        simp only [decide_eq_true_eq]
        intro h
        refine hhd ?_
        rw [hcase]
        exact h ▸ List.mem_map_of_mem Prod.fst hkv
      rw [hkeep]
    · have hmem : m ∈ tl := by
        rcases List.mem_cons.mp hm with rfl | hmem
        · exact absurd rfl hcase
        · exact hmem
      have hrec := ih hmem htl
      unfold mapDelete at hrec ⊢
      simp only [ne_eq] at hrec ⊢
      have hpred : (decide ¬ (hd.1 = m.1)) = true := by simpa using hcase
      simp only [List.filter_cons, hpred, if_true, List.length_cons]
      omega

theorem mapInsert_fresh (l : List (Nat × PHTTransaction)) (k : Nat) (v : PHTTransaction)
    (h : ∀ kv ∈ l, kv.1 ≠ k) : mapInsert k v l = l ++ [(k, v)] := by
  have hany : l.any (fun kv => kv.1 == k) = false := by
    rw [List.any_eq_false]
    intro kv hkv
    simpa using h kv hkv
  unfold mapInsert
  simp [hany]

/-- Claim C8 (amended): if the PHT cache is at capacity with distinct keys, at
least one cached entry has a timestamp below `2^64 - 1`, and the inserted key is
fresh, then `SetPHT` evicts exactly one entry — the one the scan selects, which
has minimal timestamp — and inserts the new one, leaving the size at capacity
with the evicted key absent and the new key present. (If every cached timestamp
equals `2^64 - 1`, the scan's sentinel never fires: nothing is evicted and the
bound can be exceeded — see the counterexample.) -/
theorem setPHT_evicts_oldest (c : P2SCache) (k : Nat) (pht : PHTTransaction)
    (hkeys : (c.phtCache.map Prod.fst).Nodup)
    (hcap : c.phtCache.length = c.maxSize)
    (hfresh : ∀ kv ∈ c.phtCache, kv.1 ≠ k)
    (hlow : ∃ kv ∈ c.phtCache, kv.2.Timestamp < 2 ^ 64 - 1) :
    ∃ m ∈ c.phtCache,
      findOldestPHT c.phtCache = (m.1, m.2.Timestamp) ∧
      (∀ kv ∈ c.phtCache, m.2.Timestamp ≤ kv.2.Timestamp) ∧
      (SetPHT c k pht).phtCache.length = c.maxSize ∧
      (∀ kv ∈ (SetPHT c k pht).phtCache, kv.1 ≠ m.1) ∧
      (k, pht) ∈ (SetPHT c k pht).phtCache := by
  rcases findOldestPHT_fold_spec c.phtCache (0, 2 ^ 64 - 1) with ⟨hcase, -, hall⟩
  rcases hcase with heq | ⟨m, hm, heq⟩
  · exfalso
    rcases hlow with ⟨kv, hkv, hts⟩
    have := hall kv hkv
    rw [heq] at this
    omega
  · have hmin : ∀ kv ∈ c.phtCache, m.2.Timestamp ≤ kv.2.Timestamp := by
      intro kv hkv
      have := hall kv hkv
      rw [show (c.phtCache.foldl
          (fun acc kv => if kv.2.Timestamp < acc.2 then (kv.1, kv.2.Timestamp) else acc)
          (0, 2 ^ 64 - 1)) = (m.1, m.2.Timestamp) from heq] at this
      exact this
    have hfound : findOldestPHT c.phtCache = (m.1, m.2.Timestamp) := heq
    have hge : c.phtCache.length ≥ c.maxSize := le_of_eq hcap.symm
    have hset : (SetPHT c k pht).phtCache =
        mapDelete m.1 c.phtCache ++ [(k, pht)] := by
      unfold SetPHT
      simp only [hge, if_true, evictOldestPHT, hfound]
      exact mapInsert_fresh (mapDelete m.1 c.phtCache) k pht
        (fun kv hkv => hfresh kv (List.mem_of_mem_filter hkv))
    have hdel := mapDelete_length c.phtCache m hm hkeys
    refine ⟨m, hm, hfound, hmin, ?_, ?_, ?_⟩
    · rw [hset]
      simp only [List.length_append, List.length_singleton]
      omega
    · intro kv hkv
      rw [hset] at hkv
      rcases List.mem_append.mp hkv with hkv | hkv
      · exact mapDelete_not_mem c.phtCache m.1 kv hkv
      · have : kv = (k, pht) := by simpa using hkv
        rw [this]
        exact fun h => hfresh m hm h.symm
    · rw [hset]
      exact List.mem_append_right _ (List.mem_singleton.mpr rfl)

/-- Witness for the amended C8: at capacity 2 with entries timestamped 10 and 20,
inserting a third fresh key evicts the entry timestamped 10 and keeps the size
at 2 — the spec's own example scenario. -/
theorem setPHT_evicts_oldest_witness :
    (cacheTwo.phtCache.map Prod.fst).Nodup ∧
    cacheTwo.phtCache.length = cacheTwo.maxSize ∧
    (∀ kv ∈ cacheTwo.phtCache, kv.1 ≠ 3) ∧
    (∃ kv ∈ cacheTwo.phtCache, kv.2.Timestamp < 2 ^ 64 - 1) ∧
    (∃ m ∈ cacheTwo.phtCache,
      findOldestPHT cacheTwo.phtCache = (m.1, m.2.Timestamp) ∧
      (∀ kv ∈ cacheTwo.phtCache, m.2.Timestamp ≤ kv.2.Timestamp) ∧
      (SetPHT cacheTwo 3 phtT30).phtCache.length = cacheTwo.maxSize ∧
      (∀ kv ∈ (SetPHT cacheTwo 3 phtT30).phtCache, kv.1 ≠ m.1) ∧
      (3, phtT30) ∈ (SetPHT cacheTwo 3 phtT30).phtCache) :=
  ⟨by decide, rfl, by decide, by decide,
    setPHT_evicts_oldest cacheTwo 3 phtT30 (by decide) rfl (by decide) (by decide)⟩

theorem findOldest_fold_const (l : List (Nat × PHTTransaction)) :
    ∀ acc : Nat × Nat, (∀ kv ∈ l, ¬ kv.2.Timestamp < acc.2) →
      l.foldl (fun acc kv => if kv.2.Timestamp < acc.2 then (kv.1, kv.2.Timestamp) else acc)
        acc = acc := by
  induction l with
  | nil => intro acc _; rfl
  | cons hd tl ih =>
    intro acc h
    have hhd := h hd (List.mem_cons_self hd tl)
    simp only [List.foldl_cons, hhd, if_false]
    exact ih acc (fun kv hkv => h kv (List.mem_cons_of_mem hd hkv))

theorem setPHT_sentinel_no_evict (c : P2SCache) (k : Nat) (pht : PHTTransaction)
    (hcap : c.phtCache.length = c.maxSize)
    (hmax : ∀ kv ∈ c.phtCache, kv.2.Timestamp = 2 ^ 64 - 1)
    (hzero : ∀ kv ∈ c.phtCache, kv.1 ≠ 0)
    (hfresh : ∀ kv ∈ c.phtCache, kv.1 ≠ k) :
    (SetPHT c k pht).phtCache.length = c.maxSize + 1 := by
  have hfold : findOldestPHT c.phtCache = (0, 2 ^ 64 - 1) := by
    unfold findOldestPHT
    exact findOldest_fold_const c.phtCache (0, 2 ^ 64 - 1)
      (fun kv hkv => by rw [hmax kv hkv]; omega)
  have hdel : mapDelete 0 c.phtCache = c.phtCache := by
    unfold mapDelete
    rw [List.filter_eq_self]
    intro kv hkv
    simpa using hzero kv hkv
  have hge : c.phtCache.length ≥ c.maxSize := le_of_eq hcap.symm
  unfold SetPHT
  simp only [hge, if_true, evictOldestPHT, hfold, hdel,
    mapInsert_fresh c.phtCache k pht hfresh, List.length_append, List.length_singleton]
  omega

/-- Counterexample to C8 as stated: a cache at its capacity of 1000 whose
entries all carry timestamp `2^64 - 1` (the scan sentinel) evicts nothing on
insertion — the scan leaves the zero hash, which is not a key — so `SetPHT`
grows the store to 1001 entries, exceeding `maxSize`. -/
theorem cache_eviction_counterexample :
    cacheFullMax.phtCache.length = cacheFullMax.maxSize ∧
    (SetPHT cacheFullMax 2000 phtTsMax).phtCache.length = cacheFullMax.maxSize + 1 := by
  have hcap : cacheFullMax.phtCache.length = cacheFullMax.maxSize := by
    simp [cacheFullMax, NewP2SCache]
  refine ⟨hcap, setPHT_sentinel_no_evict cacheFullMax 2000 phtTsMax hcap ?_ ?_ ?_⟩
  · intro kv hkv
    rcases List.mem_map.mp hkv with ⟨i, _, rfl⟩
    rfl
  · intro kv hkv
    rcases List.mem_map.mp hkv with ⟨i, _, rfl⟩
    simp
  · intro kv hkv
    rcases List.mem_map.mp hkv with ⟨i, hi, rfl⟩
    have := List.mem_range.mp hi
    simp only []
    omega

end P2S
